import Mathlib

set_option maxRecDepth 1000000

/-!
Verification of the CSV-grid to OpenSCAD hold-table converter
(`hold_csv_parser.py`).

The script is embedded shallowly: CSV rows are `List String`, the
`hold_data` dictionary-of-dictionaries is an association list of
association lists with Python-dict update semantics, and the two scan
passes, the default filler and the serializer are translated function by
function from the source.  Python string primitives (`strip`,
`startswith`, `replace`, `int`, the two `re.search` patterns used) are
modelled on character lists; `strip`/`\d` are modelled over ASCII
whitespace/digits, and `int()` grouping underscores are not modelled, which
is faithful for every character actually occurring in the grids.
-/

/-- ASCII whitespace, the characters Python `str.strip()` removes from the
grid cells in question. -/
def pySpace (c : Char) : Bool :=
  c = ' ' || c = '\t' || c = '\n' || c = '\x0d' || c = '\x0b' || c = '\x0c'

/-- Model of Python `str.strip()` on a character list. -/
def stripChars (l : List Char) : List Char :=
  ((l.dropWhile pySpace).reverse.dropWhile pySpace).reverse

/-- Model of Python `str.strip()`. -/
def pyStrip (s : String) : String :=
  String.mk (stripChars s.data)

/-- `leadsWith p l` holds when `p` is an initial segment of `l`. -/
def leadsWith : List Char → List Char → Bool
  | [], _ => true
  | _ :: _, [] => false
  | p :: ps, c :: cs => p = c && leadsWith ps cs

/-- Model of Python `str.startswith`. -/
def pyStartsWith (s pre : String) : Bool :=
  leadsWith pre.data s.data

/-- Python string comparison: lexicographic by code point, a proper initial
segment comparing below. -/
def charListLE : List Char → List Char → Bool
  | [], _ => true
  | _ :: _, [] => false
  | a :: as, b :: bs =>
    if a.toNat < b.toNat then true
    else if b.toNat < a.toNat then false
    else charListLE as bs

/-- Model of Python `s <= t` on strings. -/
def pyStrLE (s t : String) : Bool :=
  charListLE s.data t.data

/-- Model of Python `str.replace` (all non-overlapping occurrences, left to
right) on character lists; the fuel argument only certifies termination and
is always at least the input length. -/
def replaceCharsF (pat rep : List Char) : Nat → List Char → List Char
  | _, [] => []
  | 0, l => l
  | fuel + 1, c :: rest =>
    if pat ≠ [] ∧ leadsWith pat (c :: rest) then
      rep ++ replaceCharsF pat rep fuel (List.drop (pat.length - 1) rest)
    else
      c :: replaceCharsF pat rep fuel rest

/-- Model of Python `str.replace`. -/
def pyReplace (s pat rep : String) : String :=
  String.mk (replaceCharsF pat.data rep.data s.data.length s.data)

/-- Numeric value of a digit string. -/
def digitsToNat (l : List Char) : Nat :=
  l.foldl (fun a c => a * 10 + (c.toNat - 48)) 0

/-- Model of `re.search(r'(\d+)', s)`: value of the leftmost maximal digit
run, if any. -/
def firstDigitRun : List Char → Option Nat
  | [] => none
  | c :: rest =>
    if c.isDigit then some (digitsToNat (c :: rest.takeWhile Char.isDigit))
    else firstDigitRun rest

/-- Whether `re.search(r'C-(\d+)')` matches at the start of the list; if so,
the value of the capture group. -/
def cLabelHere : List Char → Option Nat
  | 'C' :: '-' :: c :: rest =>
    if c.isDigit then some (digitsToNat (c :: rest.takeWhile Char.isDigit))
    else none
  | _ => none

/-- Model of `re.search(r'C-(\d+)', s)`: value of the first capture group of
the leftmost match (the regex engine tries each start offset left to
right). -/
def findCNum : List Char → Option Nat
  | [] => none
  | c :: rest =>
    match cLabelHere (c :: rest) with
    | some n => some n
    | none => findCNum rest

/-- Model of Python `row_id.split('-')[1]`: the text between the first and
the second dash (total, returning `""` where Python would raise). -/
def pySplit1 (s : String) : String :=
  String.mk ((((s.data.dropWhile (· ≠ '-')).drop 1).takeWhile (· ≠ '-')))

/-- Model of the Python idiom `x if x else y` on strings. -/
def pyOr (x y : String) : String :=
  if x ≠ "" then x else y

/-- The synthesized hold label `f"C{col}_R{row}"`. -/
def synthLabel (c : Nat) (r : String) : String :=
  "C" ++ Nat.repr c ++ "_R" ++ r

/-- First-match lookup in an association list (Python dict read). -/
def alGet {κ α : Type} [DecidableEq κ] : List (κ × α) → κ → Option α
  | [], _ => none
  | (k, v) :: rest, key => if k = key then some v else alGet rest key

/-- Write to an association list: replace the first binding of the key in
place, else append (Python dict write). -/
def alSet {κ α : Type} [DecidableEq κ] : List (κ × α) → κ → α → List (κ × α)
  | [], key, val => [(key, val)]
  | (k, v) :: rest, key, val =>
    if k = key then (key, val) :: rest else (k, v) :: alSet rest key val

/-- One value of the `hold_data` table: the `[angle_h, angle_v]` pair and
the `hold_number` label. -/
structure HoldEntry where
  angle_h : Nat
  angle_v : Nat
  hold_number : String
deriving DecidableEq

/-- The `hold_data` dictionary: column number to (row id to entry). -/
abbrev HoldTable : Type := List (Nat × List (String × HoldEntry))

/-- Read `hold_data[c][r]`, `none` when either key is absent. -/
def tblGet (t : HoldTable) (c : Nat) (r : String) : Option HoldEntry :=
  match alGet t c with
  | some inner => alGet inner r
  | none => none

/-- `if col not in hold_data: hold_data[col] = {}`. -/
def ensureCol (t : HoldTable) (c : Nat) : HoldTable :=
  if (alGet t c).isNone then alSet t c [] else t

/-- The horizontal-source write: ensure the column dict exists, then
`hold_data[c][r] = e`, replacing any previous entry wholesale
(lines 103-109 and 140-146 of the source). -/
def hInsert (t : HoldTable) (c : Nat) (r : String) (e : HoldEntry) : HoldTable :=
  let t1 := ensureCol t c
  alSet t1 c (alSet ((alGet t1 c).getD []) r e)

/-- The vertical-source write: ensure the column dict exists; if the row is
present overwrite only `angles[1]`, else create `[0, angle]` with the given
label (lines 218-228 and 259-268 of the source). -/
def vUpsert (t : HoldTable) (c : Nat) (r : String) (angle : Nat) (lbl : String) :
    HoldTable :=
  let t1 := ensureCol t c
  let inner := (alGet t1 c).getD []
  match alGet inner r with
  | some e => alSet t1 c (alSet inner r ⟨e.angle_h, angle, e.hold_number⟩)
  | none => alSet t1 c (alSet inner r ⟨0, angle, lbl⟩)

/-- A CSV grid: a list of rows of text cells. -/
abbrev Grid := List (List String)

/-- `row[j]` with Python bounds conventions made total (callers guard the
index exactly where the source does). -/
def cellAt (row : List String) (j : Nat) : String :=
  row.getD j ""

/-- Per-source configuration: minimum usable row width, index of the row-id
cell, number of data cells, positional-formula offset, and whether writes
use the vertical (merging) form. -/
structure SrcCfg where
  minw : Nat
  idIdx : Nat
  jn : Nat
  start : Nat
  isVert : Bool

/-- The mainline (horizontal) source configuration. -/
def hCfg : SrcCfg := ⟨14, 14, 13, 2, false⟩

/-- The auxiliary (vertical) source configuration. -/
def vCfg : SrcCfg := ⟨15, 15, 14, 1, true⟩

/-- Dispatch a write to the source's table-update form. -/
def srcWrite (cfg : SrcCfg) (t : HoldTable) (c : Nat) (r : String)
    (angle : Nat) (lbl : String) : HoldTable :=
  if cfg.isVert then vUpsert t c r angle lbl else hInsert t c r ⟨angle, 0, lbl⟩

/-- The lookback row indices `range(i-1, max(0, i-5), -1)` of the column
resolution (lines 82 and 197 of the source). -/
def lookKs (i : Nat) : List Nat :=
  (List.range' (max 0 (i - 5) + 1) ((i - 1) - max 0 (i - 5))).reverse

/-- Lines 81-87: scan the lookback rows at cell index `j`; the first
non-empty cell whose stripped text matches `C-(\d+)` is kept as `col_name`
(empty string when none is found). -/
def lookbackGo (rows : Grid) (j : Nat) : List Nat → String
  | [] => ""
  | k :: ks =>
    let cellv := cellAt (rows.getD k []) j
    if k < rows.length ∧ j < (rows.getD k []).length ∧ cellv ≠ "" ∧
        (findCNum (pyStrip cellv).data).isSome then
      pyStrip cellv
    else lookbackGo rows j ks

/-- The `col_name` the lookback loop leaves behind. -/
def lookbackName (rows : Grid) (i j : Nat) : String :=
  lookbackGo rows j (lookKs i)

/-- Lines 89-94: resolved column number of data cell `j` of a header pair at
row `i` — the lookback label when present, else the positional formula. -/
def resolveCol (rows : Grid) (i j cstart cstep jmax : Nat) : Option Nat :=
  let col_name := lookbackName rows i j
  let col_match := if col_name ≠ "" then findCNum col_name.data else none
  if col_match = none ∧ j ≤ jmax then some (cstart + (j - 1) * cstep)
  else col_match

/-- Scanner state threaded through the row loop: `row_id`,
`in_kickboard_section`, and the table being built. -/
structure ScanState where
  row_id : Option String
  kick : Bool
  table : HoldTable

/-- Python truthiness of the `row_id` variable (`None` and `""` are falsy). -/
def truthy : Option String → Bool
  | none => false
  | some s => s ≠ ""

/-- Body of the main-branch data-cell loop (lines 68-109 / 183-228). -/
def scanMainCell (cfg : SrcCfg) (rows : Grid) (i : Nat) (rid : String)
    (t : HoldTable) (j : Nat) : HoldTable :=
  let row := rows.getD i []
  let angle_row := rows.getD (i + 1) []
  if j < angle_row.length ∧ pyStrip (cellAt angle_row j) ≠ "" then
    let angle_text := pyStrip (cellAt angle_row j)
    let hold_number := if j < row.length then pyStrip (cellAt row j) else ""
    match firstDigitRun angle_text.data with
    | some angle =>
      match resolveCol rows i j cfg.start 2 cfg.jn with
      | some col_num =>
        if col_num ≠ 0 then
          let row_num := if pyStartsWith rid "K" then rid else pySplit1 rid
          srcWrite cfg t col_num row_num angle
            (pyOr hold_number (synthLabel col_num row_num))
        else t
      | none => t
    | none => t
  else t

/-- A main-branch header pair: if the next row is an `Angle` row, process
its data cells (lines 66-109 / 181-228). -/
def scanMainPair (cfg : SrcCfg) (rows : Grid) (i : Nat) (rid : String)
    (t : HoldTable) : HoldTable :=
  if pyStrip (cellAt (rows.getD (i + 1) []) 0) = "Angle" then
    (List.range' 1 cfg.jn).foldl (scanMainCell cfg rows i rid) t
  else t

/-- The kickboard lookahead over explicit row indices (lines 118-121 /
237-240): first row whose id cell starts with `K-`, normalized. -/
def kickLookAux (cfg : SrcCfg) (rows : Grid) : List Nat → Option String
  | [] => none
  | k :: ks =>
    let rk := rows.getD k []
    if k < rows.length ∧ cfg.idIdx < rk.length ∧ cellAt rk cfg.idIdx ≠ "" ∧
        pyStartsWith (pyStrip (cellAt rk cfg.idIdx)) "K-" = true then
      some (pyReplace (pyStrip (cellAt rk cfg.idIdx)) "K-" "K")
    else kickLookAux cfg rows ks

/-- `for k in range(i, i+3)` of the kickboard-id lookahead. -/
def kickLookId (cfg : SrcCfg) (rows : Grid) (i : Nat) : Option String :=
  kickLookAux cfg rows [i, i + 1, i + 2]

/-- Body of the kickboard-branch data-cell loop (lines 125-146 / 244-268):
column always from the positional formula. -/
def scanKickCell (cfg : SrcCfg) (rows : Grid) (i : Nat) (rid : String)
    (t : HoldTable) (j : Nat) : HoldTable :=
  let row := rows.getD i []
  let angle_row := rows.getD (i + 1) []
  if j < angle_row.length ∧ j < row.length then
    let hold_number := pyStrip (cellAt row j)
    match firstDigitRun (pyStrip (cellAt angle_row j)).data with
    | some angle =>
      srcWrite cfg t (cfg.start + (j - 1) * 2) rid angle (pyOr hold_number rid)
    | none => t
  else t

/-- The row-id update of one loop iteration (lines 56-59 / 171-174): a cell
starting with `R-` is kept as is, a cell starting with `K-` is normalized by
replacing `K-` with `K`, anything else leaves the current id unchanged. -/
def updateRowId (cfg : SrcCfg) (row : List String) (orid : Option String) :
    Option String :=
  let idcell := cellAt row cfg.idIdx
  if cfg.idIdx < row.length ∧ idcell ≠ "" ∧
      pyStartsWith (pyStrip idcell) "R-" = true then
    some (pyStrip idcell)
  else if cfg.idIdx < row.length ∧ idcell ≠ "" ∧
      pyStartsWith (pyStrip idcell) "K-" = true then
    some (pyReplace (pyStrip idcell) "K-" "K")
  else orid

/-- One iteration of the row loop (lines 42-146 / 157-268): skip short rows,
update the kickboard flag and the row id, then process a header pair through
the main branch (row id known) or the kickboard branch (row id unknown,
kickboard section active). -/
def scanStep (cfg : SrcCfg) (rows : Grid) (st : ScanState) (i : Nat) : ScanState :=
  let row := rows.getD i []
  if row.length < cfg.minw then st
  else
    let grid_type := pyStrip (cellAt row 0)
    let kick := st.kick || (grid_type = "Kickboard Below")
    let rid0 : Option String := updateRowId cfg row st.row_id
    if grid_type = "Hold #" ∧ truthy rid0 = true ∧ i + 1 < rows.length ∧
        0 < (rows.getD (i + 1) []).length then
      { row_id := rid0, kick := kick,
        table := scanMainPair cfg rows i (rid0.getD "") st.table }
    else if kick = true ∧ grid_type = "Hold #" ∧ i + 1 < rows.length ∧
        0 < (rows.getD (i + 1) []).length then
      if pyStrip (cellAt (rows.getD (i + 1) []) 0) = "Angle" then
        let rid1 := match kickLookId cfg rows i with
          | some s => some s
          | none => rid0
        if truthy rid1 = true ∧ pyStartsWith (rid1.getD "") "K" = true then
          { row_id := rid1, kick := kick,
            table := (List.range' 1 cfg.jn).foldl
              (scanKickCell cfg rows i (rid1.getD "")) st.table }
        else { row_id := rid1, kick := kick, table := st.table }
      else { row_id := rid0, kick := kick, table := st.table }
    else { row_id := rid0, kick := kick, table := st.table }

/-- One whole scan pass over a source grid, starting from table `t`. -/
def scanPass (cfg : SrcCfg) (rows : Grid) (t : HoldTable) : HoldTable :=
  ((List.range rows.length).foldl (scanStep cfg rows) ⟨none, false, t⟩).table

/-- One column of a kicker default fill: ensure the column dict exists, then
insert the default entry under the kicker row id when absent. -/
def fillStep (rid : String) (d : HoldEntry) (t : HoldTable) (c : Nat) : HoldTable :=
  let t1 := ensureCol t c
  if (alGet ((alGet t1 c).getD []) rid).isNone then
    alSet t1 c (alSet ((alGet t1 c).getD []) rid d)
  else t1

/-- One column of the K1 default fill (lines 272-280). -/
def stepK1 : HoldTable → Nat → HoldTable :=
  fillStep "K1" ⟨180, 0, "K1"⟩

/-- One column of the K2 default fill (lines 282-291). -/
def stepK2 : HoldTable → Nat → HoldTable :=
  fillStep "K2" ⟨0, 90, "K2"⟩

/-- `for col in range(2, 28, 2)`: default-fill K1 over the even columns. -/
def addK1Defaults (t : HoldTable) : HoldTable :=
  (List.range' 2 13 2).foldl stepK1 t

/-- `for col in range(1, 28, 2)`: default-fill K2 over the odd columns. -/
def addK2Defaults (t : HoldTable) : HoldTable :=
  (List.range' 1 14 2).foldl stepK2 t

/-- `parse_csv_files`: horizontal pass, then vertical pass, then the two
default fills. -/
def parse_csv_files (ml aux : Grid) : HoldTable :=
  addK2Defaults (addK1Defaults (scanPass vCfg aux (scanPass hCfg ml [])))

/-- Model of Python `int(s)` as used by `row_sort_key`: optional surrounding
whitespace, optional sign, then decimal digits. -/
def pyInt (s : String) : Option Int :=
  let l := (pyStrip s).data
  match l with
  | '+' :: rest =>
    if rest ≠ [] ∧ rest.all Char.isDigit then some (Int.ofNat (digitsToNat rest))
    else none
  | '-' :: rest =>
    if rest ≠ [] ∧ rest.all Char.isDigit then some (-(Int.ofNat (digitsToNat rest)))
    else none
  | _ =>
    if l ≠ [] ∧ l.all Char.isDigit then some (Int.ofNat (digitsToNat l))
    else none

/-- The sort key produced by `row_sort_key` (lines 296-309): a tagged value
whose tag is 1 for parsed integers, 2 for the kickboard sentinels, 3
otherwise, compared lexicographically tag first. -/
inductive RKey where
  | num (n : Int)
  | kick (s : String)
  | other (s : String)
deriving DecidableEq

/-- `row_sort_key` itself. -/
def row_sort_key (row : String) : RKey :=
  if row = "K1" ∨ row = "K2" then .kick row
  else
    match pyInt row with
    | some n => .num n
    | none => .other row

/-- Python tuple comparison on the keys `(1, int) < (2, str) < (3, str)`. -/
def rkeyLE : RKey → RKey → Bool
  | .num a, .num b => decide (a ≤ b)
  | .num _, .kick _ => true
  | .num _, .other _ => true
  | .kick _, .num _ => false
  | .kick a, .kick b => pyStrLE a b
  | .kick _, .other _ => true
  | .other _, .num _ => false
  | .other _, .kick _ => false
  | .other a, .other b => pyStrLE a b

/-- Row ordering used by the serializer: compare `row_sort_key` values. -/
def rowLE (a b : String) : Bool :=
  rkeyLE (row_sort_key a) (row_sort_key b)

/-- `rowLE` as a relation, for the sorting lemmas. -/
def rowRel (a b : String) : Prop := rowLE a b = true

instance : DecidableRel rowRel := fun a b =>
  inferInstanceAs (Decidable (rowLE a b = true))

/-- `sorted(rows, key=row_sort_key)`: Python's stable sort modelled by
insertion sort. -/
def sortRows (l : List String) : List String :=
  List.insertionSort rowRel l

/-- `sorted(hold_data.keys())`: the column numbers in ascending order. -/
def sortedCols (t : HoldTable) : List Nat :=
  List.insertionSort (· ≤ ·) (t.map Prod.fst)

/-- `sorted(hold_data[col].keys(), key=row_sort_key)`. -/
def sortedRowIds (t : HoldTable) (c : Nat) : List String :=
  List.insertionSort rowRel (((alGet t c).getD []).map Prod.fst)

/-- The entry the serializer reads at a key (always present on the keys it
iterates). -/
def entryAt (t : HoldTable) (c : Nat) (r : String) : HoldEntry :=
  (tblGet t c r).getD ⟨0, 0, ""⟩

/-- The `angle_data` array (lines 330-336): key and angle pair per entry, in
serialization order. -/
def angle_data (t : HoldTable) : List ((Nat × String) × (Nat × Nat)) :=
  (sortedCols t).flatMap fun c =>
    (sortedRowIds t c).map fun r =>
      ((c, r), ((entryAt t c r).angle_h, (entryAt t c r).angle_v))

/-- The `hold_numbers` array (lines 343-347): key and label per entry, in
serialization order. -/
def hold_numbers (t : HoldTable) : List ((Nat × String) × String) :=
  (sortedCols t).flatMap fun c =>
    (sortedRowIds t c).map fun r =>
      ((c, r), (entryAt t c r).hold_number)

/-- Well-formedness of a Python dict-of-dicts: keys are unique at both
levels (guaranteed by dict semantics). -/
def WFTable (t : HoldTable) : Prop :=
  (t.map Prod.fst).Nodup ∧ ∀ p ∈ t, (p.2.map Prod.fst).Nodup

/-- A cell of the lookback window: the label value of the cell at `(k, j)`
when it is non-empty and matches `C-(\d+)`. -/
def windowCell (rows : Grid) (j k : Nat) : Option Nat :=
  let cellv := cellAt (rows.getD k []) j
  if k < rows.length ∧ j < (rows.getD k []).length ∧ cellv ≠ "" then
    findCNum (pyStrip cellv).data
  else none

/-- Value of the first matching label over a list of candidate rows. -/
def windowLabel (rows : Grid) (j : Nat) (ks : List Nat) : Option Nat :=
  ks.findSome? (windowCell rows j)

/-- Modelled from the spec: the lookback window as claim C6 words it — rows
`i-1` down through at most 4 rows back (reaching row 0 when `i ≤ 4`). -/
def specKs (i : Nat) : List Nat :=
  (List.range' (i - 4) (min i 4)).reverse

/-- Modelled from the spec: the column the claim-C6 lookback resolves, the
first matching label scanning `specKs`. -/
def specWindowLabel (rows : Grid) (i j : Nat) : Option Nat :=
  windowLabel rows j (specKs i)

/-- Modelled from the spec: claim C8's row ordering rank — numbered rows
first, then the kickboard sentinels, then everything else. -/
def specRank (s : String) : Nat :=
  if s = "K1" ∨ s = "K2" then 2
  else if (pyInt s).isSome then 1
  else 3

/-- Modelled from the spec: claim C8's ordering — by rank, then numbered
rows numerically, then sentinels and other identifiers by literal text. -/
def specRowLE (a b : String) : Bool :=
  if specRank a < specRank b then true
  else if specRank b < specRank a then false
  else if specRank a = 1 then decide ((pyInt a).getD 0 ≤ (pyInt b).getD 0)
  else pyStrLE a b

/-- Pad a test row with empty cells up to a width. -/
def padTo (n : Nat) (l : List String) : List String :=
  l ++ List.replicate (n - l.length) ""

/-- Test input: a horizontal grid whose two header pairs write the same key
`(2, "5")`, first with label `"A"`, then with label `"B"`. -/
def mlTwoWrites : Grid :=
  [List.replicate 14 "" ++ ["R-5"],
   padTo 14 ["Hold #", "A"],
   padTo 14 ["Angle", "100˚"],
   padTo 14 ["Hold #", "B"],
   padTo 14 ["Angle", "50˚"]]

/-- Test input: a single wide row with an empty leading cell and a row
label in the id column. -/
def rowsEmptyLead : Grid :=
  [List.replicate 14 "" ++ ["R-5"]]

/-- Test input: a kickboard-section header pair reached with the row id
already set and a column label in the row above it. -/
def mlKickLookback : Grid :=
  [padTo 14 ["Kickboard Below"],
   ["", "C-10"] ++ List.replicate 12 "" ++ ["K-1"],
   padTo 14 ["Hold #"],
   padTo 14 ["Angle", "60˚"]]

/-- Test input: a label cell `C-10` in row 0 at cell index 3, directly above
a header pair at row index 1. -/
def rowsLabelRow0 : Grid :=
  [["", "", "", "C-10"]]

/-- Test input: horizontal source writing angle 180 at column 4, row 5. -/
def mlMerge : Grid :=
  [List.replicate 14 "" ++ ["R-5"],
   padTo 14 ["Hold #"],
   padTo 14 ["Angle", "", "180˚"]]

/-- Test input: vertical source writing angle 90 at column 4 (via a `C-4`
label), row 5. -/
def auxMerge : Grid :=
  [List.replicate 15 "" ++ ["R-5"],
   padTo 15 ["", "", "C-4"],
   padTo 15 ["Hold #"],
   padTo 15 ["Angle", "", "90˚"]]

/-! ### Association-list and table-operation lemmas -/

theorem alGet_alSet_self {κ α : Type} [DecidableEq κ] (m : List (κ × α)) (k : κ)
    (v : α) : alGet (alSet m k v) k = some v := by
  induction m with
  | nil => simp [alSet, alGet]
  | cons p rest ih =>
    obtain ⟨k1, v1⟩ := p
    by_cases h : k1 = k
    · simp [alSet, alGet, h]
    · simp [alSet, alGet, h, ih]

theorem alGet_alSet_ne {κ α : Type} [DecidableEq κ] (m : List (κ × α)) {k k' : κ}
    (v : α) (h : k' ≠ k) : alGet (alSet m k v) k' = alGet m k' := by
  induction m with
  | nil => simp [alSet, alGet, Ne.symm h]
  | cons p rest ih =>
    obtain ⟨k1, v1⟩ := p
    by_cases h1 : k1 = k
    · subst h1
      simp [alSet, alGet, Ne.symm h]
    · by_cases h2 : k1 = k'
      · simp [alSet, alGet, h1, h2, h]
      · simp [alSet, alGet, h1, h2, ih]

theorem tblGet_eq_inner (t : HoldTable) (c : Nat) (r : String) :
    tblGet t c r = alGet ((alGet t c).getD []) r := by
  unfold tblGet
  cases alGet t c <;> simp [alGet]

theorem alGet_ensureCol_self (t : HoldTable) (c : Nat) :
    alGet (ensureCol t c) c = some ((alGet t c).getD []) := by
  unfold ensureCol
  cases h : alGet t c <;> simp [h, alGet_alSet_self]

theorem alGet_ensureCol_ne (t : HoldTable) {c c' : Nat} (h : c' ≠ c) :
    alGet (ensureCol t c) c' = alGet t c' := by
  unfold ensureCol
  cases hg : alGet t c <;> simp [hg, alGet_alSet_ne _ _ h]

theorem tblGet_ensureCol (t : HoldTable) (c c' : Nat) (r : String) :
    tblGet (ensureCol t c) c' r = tblGet t c' r := by
  by_cases hc : c' = c
  · rw [hc, tblGet_eq_inner, tblGet_eq_inner, alGet_ensureCol_self]
    simp
  · rw [tblGet_eq_inner, tblGet_eq_inner, alGet_ensureCol_ne t hc]

theorem tblGet_alSet_self {t : HoldTable} {c : Nat}
    {inner : List (String × HoldEntry)} {r : String} :
    tblGet (alSet t c inner) c r = alGet inner r := by
  rw [tblGet_eq_inner, alGet_alSet_self]
  simp

theorem tblGet_alSet_ne {t : HoldTable} {c c' : Nat}
    {inner : List (String × HoldEntry)} {r : String} (h : c' ≠ c) :
    tblGet (alSet t c inner) c' r = tblGet t c' r := by
  rw [tblGet_eq_inner, tblGet_eq_inner, alGet_alSet_ne _ _ h]

theorem tblGet_hInsert_self (t : HoldTable) (c : Nat) (r : String) (e : HoldEntry) :
    tblGet (hInsert t c r e) c r = some e := by
  simp only [hInsert]
  rw [tblGet_alSet_self, alGet_ensureCol_self]
  simp [alGet_alSet_self]

theorem tblGet_hInsert_ne {t : HoldTable} {c c' : Nat} {r r' : String}
    (e : HoldEntry) (h : c' ≠ c ∨ r' ≠ r) :
    tblGet (hInsert t c r e) c' r' = tblGet t c' r' := by
  simp only [hInsert]
  by_cases hc : c' = c
  · rw [hc] at h ⊢
    have hr : r' ≠ r := by tauto
    rw [tblGet_alSet_self, alGet_ensureCol_self]
    simp only [Option.getD_some]
    rw [alGet_alSet_ne _ _ hr, ← tblGet_eq_inner]
  · rw [tblGet_alSet_ne hc, tblGet_ensureCol]

theorem tblGet_vUpsert_self_of_mem {t : HoldTable} {c : Nat} {r : String}
    {e : HoldEntry} (angle : Nat) (lbl : String) (h : tblGet t c r = some e) :
    tblGet (vUpsert t c r angle lbl) c r =
      some ⟨e.angle_h, angle, e.hold_number⟩ := by
  have hin : alGet ((alGet t c).getD []) r = some e := by
    rw [← tblGet_eq_inner]; exact h
  simp only [vUpsert, alGet_ensureCol_self, Option.getD_some, hin]
  rw [tblGet_alSet_self, alGet_alSet_self]

theorem tblGet_vUpsert_ne {t : HoldTable} {c c' : Nat} {r r' : String}
    (angle : Nat) (lbl : String) (h : c' ≠ c ∨ r' ≠ r) :
    tblGet (vUpsert t c r angle lbl) c' r' = tblGet t c' r' := by
  simp only [vUpsert, alGet_ensureCol_self, Option.getD_some]
  by_cases hc : c' = c
  · rw [hc] at h ⊢
    have hr : r' ≠ r := by tauto
    cases hm : alGet ((alGet t c).getD []) r with
    | some e => rw [tblGet_alSet_self, alGet_alSet_ne _ _ hr, ← tblGet_eq_inner]
    | none => rw [tblGet_alSet_self, alGet_alSet_ne _ _ hr, ← tblGet_eq_inner]
  · cases hm : alGet ((alGet t c).getD []) r with
    | some e => rw [tblGet_alSet_ne hc, tblGet_ensureCol]
    | none => rw [tblGet_alSet_ne hc, tblGet_ensureCol]

theorem tblGet_srcWrite_ne (cfg : SrcCfg) {t : HoldTable} {c c' : Nat}
    {r r' : String} (angle : Nat) (lbl : String) (h : c' ≠ c ∨ r' ≠ r) :
    tblGet (srcWrite cfg t c r angle lbl) c' r' = tblGet t c' r' := by
  unfold srcWrite
  cases cfg.isVert <;>
    simp [tblGet_hInsert_ne _ h, tblGet_vUpsert_ne _ _ h]

/-! ### Default-fill lemmas -/

theorem tblGet_fillStep_self {rid : String} {d : HoldEntry} {t : HoldTable}
    {c : Nat} :
    tblGet (fillStep rid d t c) c rid = some ((tblGet t c rid).getD d) := by
  simp only [fillStep, alGet_ensureCol_self, Option.getD_some]
  rw [tblGet_eq_inner t]
  cases hm : alGet ((alGet t c).getD []) rid with
  | none =>
    simp only [hm, Option.isNone_none, if_pos]
    rw [tblGet_alSet_self, alGet_alSet_self]
    rfl
  | some e =>
    simp only [hm, Option.isNone_some, Bool.false_eq_true, if_neg, not_false_iff]
    rw [tblGet_ensureCol, tblGet_eq_inner, hm]
    rfl

theorem tblGet_fillStep_ne {rid : String} {d : HoldEntry} {t : HoldTable}
    {c c' : Nat} {r : String} (h : c' ≠ c ∨ r ≠ rid) :
    tblGet (fillStep rid d t c) c' r = tblGet t c' r := by
  simp only [fillStep, alGet_ensureCol_self, Option.getD_some]
  by_cases hc : c' = c
  · rw [hc] at h ⊢
    have hr : r ≠ rid := by tauto
    cases hm : alGet ((alGet t c).getD []) rid with
    | none =>
      simp only [hm, Option.isNone_none, if_pos]
      rw [tblGet_alSet_self, alGet_alSet_ne _ _ hr, ← tblGet_eq_inner]
    | some e =>
      simp only [hm, Option.isNone_some, Bool.false_eq_true, if_neg, not_false_iff]
      rw [tblGet_ensureCol]
  · cases hm : alGet ((alGet t c).getD []) rid with
    | none =>
      simp only [hm, Option.isNone_none, if_pos]
      rw [tblGet_alSet_ne hc, tblGet_ensureCol]
    | some e =>
      simp only [hm, Option.isNone_some, Bool.false_eq_true, if_neg, not_false_iff]
      rw [tblGet_ensureCol]

theorem tblGet_fillStep_preserve {rid : String} {d : HoldEntry} {t : HoldTable}
    {c c' : Nat} {r : String} {e : HoldEntry} (h : tblGet t c' r = some e) :
    tblGet (fillStep rid d t c) c' r = some e := by
  by_cases hc : c' = c
  · by_cases hr : r = rid
    · rw [hc, hr] at h ⊢
      rw [tblGet_fillStep_self, h]
      rfl
    · rw [tblGet_fillStep_ne (Or.inr hr), h]
  · rw [tblGet_fillStep_ne (Or.inl hc), h]

theorem tblGet_fillFold_preserve {rid : String} {d : HoldEntry} (l : List Nat)
    {t : HoldTable} {c : Nat} {r : String} {e : HoldEntry}
    (h : tblGet t c r = some e) :
    tblGet (l.foldl (fillStep rid d) t) c r = some e := by
  induction l generalizing t with
  | nil => exact h
  | cons a l ih => exact ih (tblGet_fillStep_preserve h)

theorem tblGet_fillFold_ne_row {rid : String} {d : HoldEntry} (l : List Nat)
    {t : HoldTable} {c : Nat} {r : String} (h : r ≠ rid) :
    tblGet (l.foldl (fillStep rid d) t) c r = tblGet t c r := by
  induction l generalizing t with
  | nil => rfl
  | cons a l ih => rw [List.foldl_cons, ih, tblGet_fillStep_ne (Or.inr h)]

theorem tblGet_fillFold_mem {rid : String} {d : HoldEntry} {l : List Nat}
    {t : HoldTable} {c : Nat} (h : c ∈ l) :
    tblGet (l.foldl (fillStep rid d) t) c rid =
      some ((tblGet t c rid).getD d) := by
  induction l generalizing t with
  | nil => cases h
  | cons a l ih =>
    rw [List.foldl_cons]
    by_cases hc : c = a
    · rw [← hc]
      exact tblGet_fillFold_preserve l tblGet_fillStep_self
    · rcases List.mem_cons.mp h with h1 | h1
      · exact absurd h1 hc
      · rw [ih h1, tblGet_fillStep_ne (Or.inl hc)]

/-! ### Claim theorems -/

/-- C2: after both scan passes and the default filling, every even column in
{2,...,26} has an entry at the horizontal-kickboard row K1 — equal to what
the scan passes produced when they supplied one, and to the default
`[180, 0]` with label `"K1"` otherwise — and every odd column in {1,...,27}
likewise has a K2 entry defaulting to `[0, 90]` with label `"K2"`; this
holds for every pair of input grids. -/
theorem c2_default_fill (ml aux : Grid) (c : Nat) :
    (c ∈ List.range' 2 13 2 →
      tblGet (parse_csv_files ml aux) c "K1" =
        some ((tblGet (scanPass vCfg aux (scanPass hCfg ml [])) c "K1").getD
          ⟨180, 0, "K1"⟩)) ∧
    (c ∈ List.range' 1 14 2 →
      tblGet (parse_csv_files ml aux) c "K2" =
        some ((tblGet (scanPass vCfg aux (scanPass hCfg ml [])) c "K2").getD
          ⟨0, 90, "K2"⟩)) := by
  unfold parse_csv_files addK1Defaults addK2Defaults stepK1 stepK2
  constructor
  · intro hc
    rw [tblGet_fillFold_ne_row _ (by decide), tblGet_fillFold_mem hc]
  · intro hc
    rw [tblGet_fillFold_mem hc, tblGet_fillFold_ne_row _ (by decide)]

/-- Witness for `c2_default_fill` at concrete inputs. -/
theorem c2_witness :
    (2 ∈ List.range' 2 13 2) ∧
    tblGet (parse_csv_files [] []) 2 "K1" =
      some ((tblGet (scanPass vCfg [] (scanPass hCfg [] [])) 2 "K1").getD
        ⟨180, 0, "K1"⟩) :=
  ⟨by decide, (c2_default_fill [] [] 2).1 (by decide)⟩

theorem tblGet_vUpsert_self_of_none {t : HoldTable} {c : Nat} {r : String}
    (angle : Nat) (lbl : String) (h : tblGet t c r = none) :
    tblGet (vUpsert t c r angle lbl) c r = some ⟨0, angle, lbl⟩ := by
  have hin : alGet ((alGet t c).getD []) r = none := by
    rw [← tblGet_eq_inner]; exact h
  simp only [vUpsert, alGet_ensureCol_self, Option.getD_some, hin]
  rw [tblGet_alSet_self, alGet_alSet_self]

theorem pyOr_empty (y : String) : pyOr "" y = y := by
  simp [pyOr]

/-- C1 counterexample: in the horizontal source, two header pairs writing
the same key `(2, "5")` — first with label `"A"` and angle 100, then with
label `"B"` and angle 50 — leave the entry `[50, 0]` labelled `"B"`: a
horizontal-source upsert over an existing entry replaces the whole entry,
so the first writer's label does not win. -/
theorem c1_counterexample :
    tblGet (parse_csv_files mlTwoWrites []) 2 "5" = some ⟨50, 0, "B"⟩ ∧
    "B" ≠ "A" := by
  constructor
  · decide
  · decide

/-- C1 as amended: when an entry already exists at the key, a
vertical-source upsert overwrites only `angle_v`, preserving `angle_h` and
`hold_number`; a horizontal-source write instead replaces the whole entry —
the stored angle pair becomes `[angle, 0]` and the stored label becomes the
new one.  (The horizontal pass runs entirely before the vertical pass, so
in a program run only repeated horizontal writes exhibit the replacement.) -/
theorem c1_upsert_semantics (t : HoldTable) (c : Nat) (r : String)
    (e : HoldEntry) (angle : Nat) (lbl : String) (h : tblGet t c r = some e) :
    tblGet (vUpsert t c r angle lbl) c r =
      some ⟨e.angle_h, angle, e.hold_number⟩ ∧
    tblGet (hInsert t c r ⟨angle, 0, lbl⟩) c r = some ⟨angle, 0, lbl⟩ :=
  ⟨tblGet_vUpsert_self_of_mem angle lbl h, tblGet_hInsert_self t c r _⟩

/-- Witness for `c1_upsert_semantics` at a concrete table and key. -/
theorem c1_witness :
    tblGet [(4, [("5", (⟨180, 0, "X"⟩ : HoldEntry))])] 4 "5" =
      some ⟨180, 0, "X"⟩ ∧
    tblGet (vUpsert [(4, [("5", ⟨180, 0, "X"⟩)])] 4 "5" 90 "L") 4 "5" =
      some ⟨180, 90, "X"⟩ ∧
    tblGet (hInsert [(4, [("5", ⟨180, 0, "X"⟩)])] 4 "5" ⟨90, 0, "L"⟩) 4 "5" =
      some ⟨90, 0, "L"⟩ := by
  refine ⟨by decide, ?_, ?_⟩
  · exact (c1_upsert_semantics [(4, [("5", ⟨180, 0, "X"⟩)])] 4 "5" ⟨180, 0, "X"⟩
      90 "L" (by decide)).1
  · exact (c1_upsert_semantics [(4, [("5", ⟨180, 0, "X"⟩)])] 4 "5" ⟨180, 0, "X"⟩
      90 "L" (by decide)).2

/-- C3 counterexample: with both sources empty, the Default Filler creates
the entry at `(2, K1)` with `hold_number = "K1"`, not the synthesized label
`"C2_RK1"` the claim requires for label-less entries. -/
theorem c3_counterexample :
    tblGet (parse_csv_files [] []) 2 "K1" = some ⟨180, 0, "K1"⟩ ∧
    synthLabel 2 "K1" = "C2_RK1" ∧
    "K1" ≠ "C2_RK1" := by
  refine ⟨by decide, by decide, by decide⟩

/-- C3 as amended: an empty label cell falls back to the synthesized
`"C<col>_R<row>"` only in the two main branches; the kickboard-section
branches fall back to the row id itself, and the Default Filler labels its
entries `"K1"` / `"K2"`. -/
theorem c3_label_defaults (c : Nat) (r rid : String) (a : Nat) (t : HoldTable) :
    tblGet (hInsert t c r ⟨a, 0, pyOr "" (synthLabel c r)⟩) c r =
      some ⟨a, 0, synthLabel c r⟩ ∧
    (tblGet t c r = none →
      tblGet (vUpsert t c r a (pyOr "" (synthLabel c r))) c r =
        some ⟨0, a, synthLabel c r⟩) ∧
    tblGet (hInsert t c rid ⟨a, 0, pyOr "" rid⟩) c rid = some ⟨a, 0, rid⟩ ∧
    (tblGet t c rid = none →
      tblGet (vUpsert t c rid a (pyOr "" rid)) c rid = some ⟨0, a, rid⟩) ∧
    (tblGet t c "K1" = none → tblGet (stepK1 t c) c "K1" = some ⟨180, 0, "K1"⟩) ∧
    (tblGet t c "K2" = none → tblGet (stepK2 t c) c "K2" = some ⟨0, 90, "K2"⟩) := by
  refine ⟨?_, ?_, ?_, ?_, ?_, ?_⟩
  · rw [pyOr_empty, tblGet_hInsert_self]
  · intro h
    rw [pyOr_empty, tblGet_vUpsert_self_of_none _ _ h]
  · rw [pyOr_empty, tblGet_hInsert_self]
  · intro h
    rw [pyOr_empty, tblGet_vUpsert_self_of_none _ _ h]
  · intro h
    unfold stepK1
    rw [tblGet_fillStep_self, h]
    rfl
  · intro h
    unfold stepK2
    rw [tblGet_fillStep_self, h]
    rfl

/-- Witness for `c3_label_defaults` at the empty table. -/
theorem c3_witness :
    tblGet ([] : HoldTable) 7 "3" = none ∧
    tblGet (vUpsert ([] : HoldTable) 7 "3" 45 (pyOr "" (synthLabel 7 "3"))) 7 "3" =
      some ⟨0, 45, synthLabel 7 "3"⟩ ∧
    tblGet (stepK1 ([] : HoldTable) 7) 7 "K1" = some ⟨180, 0, "K1"⟩ ∧
    tblGet (stepK2 ([] : HoldTable) 7) 7 "K2" = some ⟨0, 90, "K2"⟩ := by
  refine ⟨by decide, ?_, ?_, ?_⟩
  · exact (c3_label_defaults 7 "3" "K1" 45 []).2.1 (by decide)
  · exact (c3_label_defaults 7 "3" "K1" 45 []).2.2.2.2.1 (by decide)
  · exact (c3_label_defaults 7 "3" "K1" 45 []).2.2.2.2.2 (by decide)

/-- C4 counterexample: a row whose leading cell is empty but which is wide
enough is not skipped — its id cell still updates `current_row_id` (here to
`"R-5"`), contradicting the claim that such rows leave scanner state
unchanged. -/
theorem c4_counterexample :
    (scanStep hCfg rowsEmptyLead ⟨none, false, []⟩ 0).row_id = some "R-5" ∧
    pyStrip (cellAt (rowsEmptyLead.getD 0 []) 0) = "" := by
  refine ⟨by decide, by decide⟩

/-- C4 as amended: a row shorter than the source minimum width is skipped
entirely (scanner state unchanged); a row with an empty leading cell never
changes the kickboard flag or the table, but — unlike the claim — it can
still update `current_row_id` from its id cell. -/
theorem c4_row_skipping (cfg : SrcCfg) (rows : Grid) (st : ScanState) (i : Nat) :
    ((rows.getD i []).length < cfg.minw → scanStep cfg rows st i = st) ∧
    (pyStrip (cellAt (rows.getD i []) 0) = "" →
      (scanStep cfg rows st i).kick = st.kick ∧
      (scanStep cfg rows st i).table = st.table) := by
  constructor
  · intro h
    unfold scanStep
    rw [if_pos h]
  · intro h
    unfold scanStep
    by_cases hlen : (rows.getD i []).length < cfg.minw
    · rw [if_pos hlen]
      exact ⟨rfl, rfl⟩
    · rw [if_neg hlen]
      simp only [h]
      simp

/-- Witness for `c4_row_skipping` at concrete inputs. -/
theorem c4_witness :
    (([] : Grid).getD 0 []).length < hCfg.minw ∧
    scanStep hCfg [] ⟨some "X", true, []⟩ 0 = ⟨some "X", true, []⟩ ∧
    pyStrip (cellAt (([] : Grid).getD 0 []) 0) = "" ∧
    (scanStep hCfg [] ⟨some "X", true, []⟩ 0).kick = true ∧
    (scanStep hCfg [] ⟨some "X", true, []⟩ 0).table = [] :=
  ⟨by decide, (c4_row_skipping hCfg [] ⟨some "X", true, []⟩ 0).1 (by decide),
   by decide,
   ((c4_row_skipping hCfg [] ⟨some "X", true, []⟩ 0).2 (by decide)).1,
   ((c4_row_skipping hCfg [] ⟨some "X", true, []⟩ 0).2 (by decide)).2⟩

/-! ### Scanner-branch lemmas -/

theorem str_ne_empty_of_data {s : String} {c : Char} {l : List Char}
    (h : s.data = c :: l) : s ≠ "" := by
  intro hs
  rw [hs] at h
  exact List.noConfusion h

theorem mk_cons_ne_empty (c : Char) (l : List Char) : String.mk (c :: l) ≠ "" :=
  fun h => List.noConfusion (congrArg String.data h)

theorem data_shape_of_leadsWith {p : Char} {ps l : List Char}
    (h : leadsWith (p :: ps) l = true) : ∃ m, l = p :: m := by
  cases l with
  | nil => simp [leadsWith] at h
  | cons a as =>
    simp only [leadsWith, Bool.and_eq_true, decide_eq_true_eq] at h
    exact ⟨as, by rw [h.1]⟩

theorem pyStartsWith_R_ne_empty {s : String} (h : pyStartsWith s "R-" = true) :
    s ≠ "" := by
  unfold pyStartsWith at h
  rw [show ("R-" : String).data = ['R', '-'] from rfl] at h
  obtain ⟨m, hm⟩ := data_shape_of_leadsWith h
  exact str_ne_empty_of_data hm

theorem pyReplace_K_ne_empty {s : String} (h : pyStartsWith s "K-" = true) :
    pyReplace s "K-" "K" ≠ "" := by
  unfold pyStartsWith at h
  rw [show ("K-" : String).data = ['K', '-'] from rfl] at h
  obtain ⟨m, hm⟩ := data_shape_of_leadsWith h
  unfold pyReplace
  rw [show ("K-" : String).data = ['K', '-'] from rfl,
    show ("K" : String).data = ['K'] from rfl, hm, List.length_cons]
  rw [show replaceCharsF ['K', '-'] ['K'] (m.length + 1) ('K' :: m) =
      if (['K', '-'] ≠ [] ∧ leadsWith ['K', '-'] ('K' :: m)) then
        ['K'] ++ replaceCharsF ['K', '-'] ['K'] m.length
          (List.drop (['K', '-'].length - 1) m)
      else 'K' :: replaceCharsF ['K', '-'] ['K'] m.length m from rfl]
  rw [hm] at h
  rw [if_pos ⟨by simp, h⟩]
  exact mk_cons_ne_empty _ _

theorem truthy_updateRowId (cfg : SrcCfg) (row : List String)
    {orid : Option String} (h : truthy orid = true) :
    truthy (updateRowId cfg row orid) = true := by
  unfold updateRowId
  dsimp only
  split_ifs with h1 h2
  · simp only [truthy, decide_eq_true_eq]
    exact pyStartsWith_R_ne_empty h1.2.2
  · simp only [truthy, decide_eq_true_eq]
    exact pyReplace_K_ne_empty h2.2.2
  · exact h

theorem scanStep_table_kick (cfg : SrcCfg) (rows : Grid) (i : Nat)
    (orid : Option String) (tb : HoldTable) (b1 b2 : Bool)
    (h : truthy orid = true) :
    (scanStep cfg rows ⟨orid, b1, tb⟩ i).table =
    (scanStep cfg rows ⟨orid, b2, tb⟩ i).table := by
  have hrid : truthy (updateRowId cfg (rows.getD i []) orid) = true :=
    truthy_updateRowId cfg _ h
  unfold scanStep
  by_cases hlen : (rows.getD i []).length < cfg.minw
  · rw [if_pos hlen, if_pos hlen]
  · rw [if_neg hlen, if_neg hlen]
    dsimp only
    split_ifs <;>
      first
        | rfl
        | (exfalso; tauto)

theorem scanKickCell_localized (cfg : SrcCfg) (rows : Grid) (i : Nat)
    (rid : String) (t : HoldTable) (j : Nat) {c : Nat} {r : String}
    (h : tblGet (scanKickCell cfg rows i rid t j) c r ≠ tblGet t c r) :
    c = cfg.start + (j - 1) * 2 ∧ r = rid := by
  by_contra hcc
  apply h
  unfold scanKickCell
  dsimp only
  split_ifs with hcond
  · cases hfd : firstDigitRun (pyStrip (cellAt (rows.getD (i + 1) []) j)).data with
    | some a => exact tblGet_srcWrite_ne cfg _ _ (not_and_or.mp hcc)
    | none => rfl
  · rfl

theorem kickFold_localized (cfg : SrcCfg) (rows : Grid) (i : Nat) (rid : String)
    (js : List Nat) :
    ∀ (t : HoldTable) (c : Nat) (r : String),
      tblGet (js.foldl (scanKickCell cfg rows i rid) t) c r ≠ tblGet t c r →
      ∃ j ∈ js, c = cfg.start + (j - 1) * 2 ∧ r = rid := by
  induction js with
  | nil =>
    intro t c r h
    exact absurd rfl h
  | cons j js ih =>
    intro t c r h
    rw [List.foldl_cons] at h
    by_cases hstep : tblGet (scanKickCell cfg rows i rid t j) c r = tblGet t c r
    · have h2 : tblGet (js.foldl (scanKickCell cfg rows i rid)
          (scanKickCell cfg rows i rid t j)) c r ≠
          tblGet (scanKickCell cfg rows i rid t j) c r := by
        rw [hstep]; exact h
      obtain ⟨j', hj', hk⟩ := ih (scanKickCell cfg rows i rid t j) c r h2
      exact ⟨j', List.mem_cons_of_mem _ hj', hk⟩
    · obtain ⟨hc, hr⟩ := scanKickCell_localized cfg rows i rid t j hstep
      exact ⟨j, List.mem_cons_self _ _, hc, hr⟩

/-- C5 counterexample: in `mlKickLookback` the kickboard-section marker has
been seen and the row id `K1` is already set when the `Hold #`/`Angle` pair
is reached, so the pair is handled by the main branch, whose lookback finds
the `C-10` label: the entry lands at column 10 (not at the positional
column 2, which only receives the filler default). -/
theorem c5_counterexample :
    tblGet (parse_csv_files mlKickLookback []) 10 "K1" =
      some ⟨60, 0, "C10_RK1"⟩ ∧
    tblGet (parse_csv_files mlKickLookback []) 2 "K1" =
      some ⟨180, 0, "K1"⟩ := by
  refine ⟨by decide, by decide⟩

/-- C5 as amended: the positional-only kickboard branch handles a header
pair only when no row identifier is currently set — when one is set, the
result table is the main branch's, independent of the kickboard flag (so
the lookback applies inside the kickboard section too) — and every write
the kickboard branch performs lands at a positional column
`start + (j-1)*2` under the looked-up kickboard row id. -/
theorem c5_kickboard_branch (cfg : SrcCfg) (rows : Grid) (i : Nat)
    (orid : Option String) (tb : HoldTable) (b1 b2 : Bool) (rid : String)
    (t : HoldTable) (c : Nat) (r : String) :
    (truthy orid = true →
      (scanStep cfg rows ⟨orid, b1, tb⟩ i).table =
        (scanStep cfg rows ⟨orid, b2, tb⟩ i).table) ∧
    (tblGet ((List.range' 1 cfg.jn).foldl (scanKickCell cfg rows i rid) t) c r ≠
        tblGet t c r →
      ∃ j ∈ List.range' 1 cfg.jn, c = cfg.start + (j - 1) * 2 ∧ r = rid) :=
  ⟨fun h => scanStep_table_kick cfg rows i orid tb b1 b2 h,
   fun h => kickFold_localized cfg rows i rid (List.range' 1 cfg.jn) t c r h⟩

/-- Witness for `c5_kickboard_branch` at concrete inputs. -/
theorem c5_witness :
    truthy (some "R-1") = true ∧
    (scanStep hCfg [["Hold #", "5"], ["Angle", "60"]]
        ⟨some "R-1", true, []⟩ 0).table =
      (scanStep hCfg [["Hold #", "5"], ["Angle", "60"]]
        ⟨some "R-1", false, []⟩ 0).table ∧
    tblGet ((List.range' 1 hCfg.jn).foldl
        (scanKickCell hCfg [["Hold #", "5"], ["Angle", "60"]] 0 "K1") []) 2 "K1" ≠
      tblGet [] 2 "K1" ∧
    ∃ j ∈ List.range' 1 hCfg.jn, 2 = hCfg.start + (j - 1) * 2 ∧ "K1" = "K1" :=
  ⟨by decide,
   (c5_kickboard_branch hCfg [["Hold #", "5"], ["Angle", "60"]] 0 (some "R-1")
      [] true false "K1" [] 2 "K1").1 (by decide),
   by decide,
   (c5_kickboard_branch hCfg [["Hold #", "5"], ["Angle", "60"]] 0 (some "R-1")
      [] true false "K1" [] 2 "K1").2 (by decide)⟩

/-! ### Column-resolution lemmas -/

theorem findCNum_isSome_ne_nil {l : List Char} (h : (findCNum l).isSome = true) :
    l ≠ [] := by
  intro hl
  rw [hl] at h
  simp [findCNum] at h

theorem lookbackGo_cons (rows : Grid) (j k : Nat) (ks : List Nat) :
    lookbackGo rows j (k :: ks) =
      if k < rows.length ∧ j < (rows.getD k []).length ∧
          cellAt (rows.getD k []) j ≠ "" ∧
          (findCNum (pyStrip (cellAt (rows.getD k []) j)).data).isSome then
        pyStrip (cellAt (rows.getD k []) j)
      else lookbackGo rows j ks := rfl

theorem lookbackGo_eq_windowLabel (rows : Grid) (j : Nat) (ks : List Nat) :
    (if lookbackGo rows j ks ≠ "" then findCNum (lookbackGo rows j ks).data
     else none) = windowLabel rows j ks := by
  induction ks with
  | nil => simp [lookbackGo, windowLabel, List.findSome?]
  | cons k ks ih =>
    by_cases hck : k < rows.length ∧ j < (rows.getD k []).length ∧
        cellAt (rows.getD k []) j ≠ "" ∧
        (findCNum (pyStrip (cellAt (rows.getD k []) j)).data).isSome
    · have hgo : lookbackGo rows j (k :: ks) = pyStrip (cellAt (rows.getD k []) j) := by
        rw [lookbackGo_cons, if_pos hck]
      have hne : pyStrip (cellAt (rows.getD k []) j) ≠ "" := by
        have hd := findCNum_isSome_ne_nil hck.2.2.2
        cases hdata : (pyStrip (cellAt (rows.getD k []) j)).data with
        | nil => exact absurd hdata hd
        | cons a as => exact str_ne_empty_of_data hdata
      have hwc : windowCell rows j k =
          findCNum (pyStrip (cellAt (rows.getD k []) j)).data := by
        unfold windowCell
        rw [if_pos ⟨hck.1, hck.2.1, hck.2.2.1⟩]
      unfold windowLabel List.findSome?
      rw [hwc, hgo, if_pos hne]
      obtain ⟨n, hn⟩ := Option.isSome_iff_exists.mp hck.2.2.2
      rw [hn]
    · have hgo : lookbackGo rows j (k :: ks) = lookbackGo rows j ks := by
        rw [lookbackGo_cons, if_neg hck]
      have hwc : windowCell rows j k = none := by
        unfold windowCell
        by_cases h3 : k < rows.length ∧ j < (rows.getD k []).length ∧
            cellAt (rows.getD k []) j ≠ ""
        · rw [if_pos h3]
          cases hf : findCNum (pyStrip (cellAt (rows.getD k []) j)).data with
          | none => rfl
          | some n => exact absurd ⟨h3.1, h3.2.1, h3.2.2, by rw [hf]; rfl⟩ hck
        · rw [if_neg h3]
      unfold windowLabel List.findSome?
      rw [hwc, hgo]
      exact ih

/-- C6 counterexample: with a `C-10` label in row 0 at cell index 3 and the
header pair at row index 1, the claim's lookback window (rows `i-1` down
through 4 rows back) finds the label and demands column 10, but the code's
window `range(i-1, max(0, i-5), -1)` is empty at `i = 1` — row 0 is never
scanned — so the code resolves the positional column 6. -/
theorem c6_counterexample :
    specWindowLabel rowsLabelRow0 1 3 = some 10 ∧
    resolveCol rowsLabelRow0 1 3 2 2 13 = some 6 ∧
    (10 : Nat) ≠ 6 := by
  refine ⟨by decide, by decide, by decide⟩

/-- C6 as amended: the resolved column is the value of the first matching
`C-<n>` label over the code's lookback window, with the positional formula
`start + (j-1)*step` as fallback for in-range `j`; that window is rows
`i-1` down to `max(i-4, 1)` — row 0 is never consulted — and it coincides
with the claim's window exactly when `i ≥ 5`.  In particular `j = 3` with
an empty window resolves to `2 + (3-1)*2 = 6` for the horizontal source. -/
theorem c6_lookback (rows : Grid) (i j cstart cstep jmax : Nat) :
    resolveCol rows i j cstart cstep jmax =
      (match windowLabel rows j (lookKs i) with
       | some n => some n
       | none => if j ≤ jmax then some (cstart + (j - 1) * cstep) else none) ∧
    lookKs i = (List.range' (max 1 (i - 4)) (i - max 1 (i - 4))).reverse ∧
    (windowLabel rows 3 (lookKs i) = none → resolveCol rows i 3 2 2 13 = some 6) ∧
    (5 ≤ i → windowLabel rows j (lookKs i) = specWindowLabel rows i j) := by
  have hmain : ∀ j' cstart' cstep' jmax' : Nat,
      resolveCol rows i j' cstart' cstep' jmax' =
        (match windowLabel rows j' (lookKs i) with
         | some n => some n
         | none =>
           if j' ≤ jmax' then some (cstart' + (j' - 1) * cstep') else none) := by
    intro j' cstart' cstep' jmax'
    unfold resolveCol lookbackName
    dsimp only
    rw [lookbackGo_eq_windowLabel]
    cases hw : windowLabel rows j' (lookKs i) with
    | none =>
      by_cases hj : j' ≤ jmax'
      · rw [if_pos ⟨rfl, hj⟩]
        simp [hj]
      · rw [if_neg (fun hand => hj hand.2)]
        simp [hj]
    | some n =>
      rw [if_neg (fun hand => Option.noConfusion hand.1)]
  refine ⟨hmain j cstart cstep jmax, ?_, ?_, ?_⟩
  · unfold lookKs
    rw [show max 0 (i - 5) + 1 = max 1 (i - 4) by omega,
      show (i - 1) - max 0 (i - 5) = i - max 1 (i - 4) by omega]
  · intro hw
    rw [hmain 3 2 2 13, hw]
    decide
  · intro hi
    unfold specWindowLabel specKs lookKs
    rw [show max 0 (i - 5) + 1 = i - 4 by omega,
      show (i - 1) - max 0 (i - 5) = min i 4 by omega]

/-- Witness for `c6_lookback` at concrete inputs. -/
theorem c6_witness :
    windowLabel [] 3 (lookKs 7) = none ∧
    resolveCol [] 7 3 2 2 13 = some 6 ∧
    (5 ≤ 7) ∧
    windowLabel [] 3 (lookKs 7) = specWindowLabel [] 7 3 :=
  ⟨by decide, (c6_lookback [] 7 3 2 2 13).2.2.1 (by decide), by decide,
   (c6_lookback [] 7 3 2 2 13).2.2.2 (by decide)⟩

/-- C7: a horizontal-source cell reporting angle 180 at column 4 / row 5
merged with a vertical-source cell reporting angle 90 at the same key
yields exactly the angle pair `[180, 90]` (with the synthesized label,
since neither source supplied one). -/
theorem c7_merge :
    tblGet (parse_csv_files mlMerge auxMerge) 4 "5" =
      some ⟨180, 90, "C4_R5"⟩ := by
  decide

/-! ### Row-ordering lemmas -/

theorem charListLE_total (l m : List Char) :
    charListLE l m = true ∨ charListLE m l = true := by
  induction l generalizing m with
  | nil => exact Or.inl rfl
  | cons a as ih =>
    cases m with
    | nil => exact Or.inr rfl
    | cons b bs =>
      by_cases h1 : a.toNat < b.toNat
      · left
        simp [charListLE, h1]
      · by_cases h2 : b.toNat < a.toNat
        · right
          simp [charListLE, h2]
        · rcases ih bs with h | h
          · left
            simp [charListLE, h1, h2, h]
          · right
            simp [charListLE, h1, h2, h]

theorem charListLE_trans (l m n : List Char) (h1 : charListLE l m = true)
    (h2 : charListLE m n = true) : charListLE l n = true := by
  induction l generalizing m n with
  | nil => rfl
  | cons a as ih =>
    cases m with
    | nil => simp [charListLE] at h1
    | cons b bs =>
      cases n with
      | nil => simp [charListLE] at h2
      | cons c cs =>
        by_cases hab : a.toNat < b.toNat
        · by_cases hbc : b.toNat < c.toNat
          · simp [charListLE, show a.toNat < c.toNat by omega]
          · by_cases hcb : c.toNat < b.toNat
            · simp [charListLE, hbc, hcb] at h2
            · simp [charListLE, show a.toNat < c.toNat by omega]
        · by_cases hba : b.toNat < a.toNat
          · simp [charListLE, hab, hba] at h1
          · by_cases hbc : b.toNat < c.toNat
            · simp [charListLE, show a.toNat < c.toNat by omega]
            · by_cases hcb : c.toNat < b.toNat
              · simp [charListLE, hbc, hcb] at h2
              · simp only [charListLE, hab, hba, if_neg, if_false] at h1
                simp only [charListLE, hbc, hcb, if_neg, if_false] at h2
                have hac1 : ¬a.toNat < c.toNat := by omega
                have hac2 : ¬c.toNat < a.toNat := by omega
                simp only [charListLE, hac1, hac2, if_neg, if_false]
                exact ih bs cs h1 h2

theorem rowLE_eq_specRowLE (a b : String) : rowLE a b = specRowLE a b := by
  unfold rowLE row_sort_key specRowLE specRank
  by_cases ha : a = "K1" ∨ a = "K2"
  · by_cases hb : b = "K1" ∨ b = "K2"
    · simp [ha, hb, rkeyLE]
    · cases hpb : pyInt b with
      | some nb => simp [ha, hb, hpb, rkeyLE]
      | none => simp [ha, hb, hpb, rkeyLE]
  · cases hpa : pyInt a with
    | some na =>
      by_cases hb : b = "K1" ∨ b = "K2"
      · simp [ha, hb, hpa, rkeyLE]
      · cases hpb : pyInt b with
        | some nb => simp [ha, hb, hpa, hpb, rkeyLE]
        | none => simp [ha, hb, hpa, hpb, rkeyLE]
    | none =>
      by_cases hb : b = "K1" ∨ b = "K2"
      · simp [ha, hb, hpa, rkeyLE]
      · cases hpb : pyInt b with
        | some nb => simp [ha, hb, hpa, hpb, rkeyLE]
        | none => simp [ha, hb, hpa, hpb, rkeyLE]

theorem rowLE_total (a b : String) : rowLE a b = true ∨ rowLE b a = true := by
  unfold rowLE
  cases row_sort_key a <;> cases row_sort_key b <;>
    simp only [rkeyLE, pyStrLE, decide_eq_true_eq] <;>
    first
      | exact Or.inl rfl
      | exact Or.inr rfl
      | exact Or.inl trivial
      | exact Or.inr trivial
      | exact Int.le_total _ _
      | exact charListLE_total _ _

theorem rowLE_trans (a b c : String) :
    rowLE a b = true → rowLE b c = true → rowLE a c = true := by
  unfold rowLE
  cases row_sort_key a <;> cases row_sort_key b <;> cases row_sort_key c <;>
    simp only [rkeyLE, pyStrLE, decide_eq_true_eq] <;>
    intro h1 h2 <;>
    first
      | rfl
      | trivial
      | omega
      | exact charListLE_trans _ _ _ h1 h2

instance : IsTotal String rowRel :=
  ⟨fun a b => rowLE_total a b⟩

instance : IsTrans String rowRel :=
  ⟨fun a b c h1 h2 => rowLE_trans a b c h1 h2⟩

/-- C8: sorting a list of row identifiers with `row_sort_key` yields a list
pairwise ordered as the spec describes — numbered rows numerically
ascending first, then the two kickboard sentinels with K1 before K2, then
any other identifier by its literal text — and the concrete example
`["3","1","K1","K2","2"]` sorts to `["1","2","3","K1","K2"]`. -/
theorem c8_row_order :
    (∀ l : List String,
      (sortRows l).Pairwise (fun a b => specRowLE a b = true)) ∧
    sortRows ["3", "1", "K1", "K2", "2"] = ["1", "2", "3", "K1", "K2"] := by
  constructor
  · intro l
    have hs : (List.insertionSort rowRel l).Pairwise rowRel :=
      List.sorted_insertionSort rowRel l
    exact hs.imp (fun h => by rw [← rowLE_eq_specRowLE]; exact h)
  · decide

/-! ### Serializer lemmas -/

theorem alGet_mem {κ α : Type} [DecidableEq κ] {m : List (κ × α)} {k : κ}
    {v : α} (h : alGet m k = some v) : (k, v) ∈ m := by
  induction m with
  | nil => simp [alGet] at h
  | cons p rest ih =>
    obtain ⟨k1, v1⟩ := p
    by_cases h1 : k1 = k
    · unfold alGet at h
      rw [if_pos h1] at h
      rw [← h1, Option.some_inj.mp h]
      exact List.mem_cons_self _ _
    · unfold alGet at h
      rw [if_neg h1] at h
      exact List.mem_cons_of_mem _ (ih h)

theorem alGet_isSome_of_mem_keys {κ α : Type} [DecidableEq κ]
    {m : List (κ × α)} {k : κ} (h : k ∈ m.map Prod.fst) :
    (alGet m k).isSome = true := by
  induction m with
  | nil => simp at h
  | cons p rest ih =>
    obtain ⟨k1, v1⟩ := p
    by_cases h1 : k1 = k
    · simp [alGet, h1]
    · simp only [List.map_cons, List.mem_cons] at h
      rcases h with h | h
      · exact absurd h.symm h1
      · simpa [alGet, h1] using ih h

/-- C9: for every well-formed table (unique keys at both dict levels, as
Python dicts guarantee), the serialized `angle_data` and `hold_numbers`
arrays carry exactly the same (column, row) key sequence, with every key
appearing exactly once. -/
theorem c9_key_sets (t : HoldTable) (hwf : WFTable t) :
    (angle_data t).map Prod.fst = (hold_numbers t).map Prod.fst ∧
    ((angle_data t).map Prod.fst).Nodup := by
  have hkeys : (angle_data t).map Prod.fst =
      (sortedCols t).flatMap fun c => (sortedRowIds t c).map fun r => (c, r) := by
    unfold angle_data
    rw [List.map_flatMap]
    simp only [List.map_map]
    rfl
  have hkeys2 : (hold_numbers t).map Prod.fst =
      (sortedCols t).flatMap fun c => (sortedRowIds t c).map fun r => (c, r) := by
    unfold hold_numbers
    rw [List.map_flatMap]
    simp only [List.map_map]
    rfl
  refine ⟨hkeys.trans hkeys2.symm, ?_⟩
  rw [hkeys]
  have hcols : (sortedCols t).Nodup :=
    ((List.perm_insertionSort _ _).nodup_iff).mpr hwf.1
  apply List.nodup_flatMap.mpr
  constructor
  · intro c hc
    apply List.Nodup.map
    · intro r1 r2 hr
      simpa using congrArg Prod.snd hr
    · unfold sortedRowIds
      apply ((List.perm_insertionSort rowRel _).nodup_iff).mpr
      have hck : c ∈ t.map Prod.fst :=
        (List.perm_insertionSort (fun a b => a ≤ b) (t.map Prod.fst)).mem_iff.mp
          (by simpa [sortedCols] using hc)
      obtain ⟨inner, hinner⟩ :=
        Option.isSome_iff_exists.mp (alGet_isSome_of_mem_keys hck)
      rw [hinner]
      exact hwf.2 (c, inner) (alGet_mem hinner)
  · refine hcols.imp ?_
    intro c c' hne x hx1 hx2
    obtain ⟨r1, _, hr1⟩ := List.mem_map.mp hx1
    obtain ⟨r2, _, hr2⟩ := List.mem_map.mp hx2
    apply hne
    have := hr1.trans hr2.symm
    exact (congrArg Prod.fst this)

/-- Witness for `c9_key_sets` at a concrete table. -/
theorem c9_witness :
    WFTable [(2, [("K1", (⟨180, 0, "K1"⟩ : HoldEntry))])] ∧
    ((angle_data [(2, [("K1", (⟨180, 0, "K1"⟩ : HoldEntry))])]).map Prod.fst =
      (hold_numbers [(2, [("K1", (⟨180, 0, "K1"⟩ : HoldEntry))])]).map Prod.fst ∧
    ((angle_data [(2, [("K1", (⟨180, 0, "K1"⟩ : HoldEntry))])]).map
        Prod.fst).Nodup) := by
  constructor
  · constructor
    · decide
    · intro p hp
      simp only [List.mem_singleton] at hp
      rw [hp]
      decide
  · refine c9_key_sets _ ⟨by decide, ?_⟩
    intro p hp
    simp only [List.mem_singleton] at hp
    rw [hp]
    decide

/-- C10: when the two scan passes contribute nothing (as with empty input
files), the resulting table is exactly the default fill — a K1 entry
`[180, 0]` labelled `"K1"` for each of the 13 even columns 2..26 followed by
a K2 entry `[0, 90]` labelled `"K2"` for each of the 14 odd columns 1..27 —
27 entries and nothing else. -/
theorem c10_empty_sources (ml aux : Grid)
    (h1 : scanPass hCfg ml [] = [])
    (h2 : scanPass vCfg aux [] = []) :
    parse_csv_files ml aux =
      ((List.range' 2 13 2).map
        fun c => (c, [("K1", (⟨180, 0, "K1"⟩ : HoldEntry))])) ++
      ((List.range' 1 14 2).map
        fun c => (c, [("K2", (⟨0, 90, "K2"⟩ : HoldEntry))])) ∧
    (parse_csv_files ml aux).foldl (fun n p => n + p.2.length) 0 = 27 := by
  have hp : parse_csv_files ml aux = addK2Defaults (addK1Defaults []) := by
    unfold parse_csv_files
    rw [h1, h2]
  constructor
  · rw [hp]
    decide
  · rw [hp]
    decide

/-- Witness for `c10_empty_sources` at empty inputs. -/
theorem c10_witness :
    scanPass hCfg [] [] = [] ∧
    scanPass vCfg [] [] = [] ∧
    (parse_csv_files [] [] =
      ((List.range' 2 13 2).map
        fun c => (c, [("K1", (⟨180, 0, "K1"⟩ : HoldEntry))])) ++
      ((List.range' 1 14 2).map
        fun c => (c, [("K2", (⟨0, 90, "K2"⟩ : HoldEntry))])) ∧
    (parse_csv_files [] []).foldl (fun n p => n + p.2.length) 0 = 27) :=
  ⟨by decide, by decide, c10_empty_sources [] [] (by decide) (by decide)⟩
